import Mathlib

/-!
Verification of the labelync render pipeline against its design document.

The development shallowly embeds the algorithmic core of the repository:
the text fitter (`calculateFontSize` and its binary-search loop), the
SVG text-field substitution performed by `drawSVGTemplate`, the
Floyd-Steinberg ditherer of `useCanvas.ts`, the preview-canvas dimension
computation (`mmToPx`), and the protocol encoder's configuration
validation (modelled from the design document, the encoder source not
being part of the extracted sources).  Numbers are rationals: the
JavaScript source computes with IEEE doubles, but every property checked
here concerns exact structural behaviour (branching, index arithmetic,
interval halving), not rounding of doubles, so `Rat` is the faithful
exact-arithmetic reading of the code.
-/

/-! ## Text fitter (src/src/hooks/useCanvas.ts, calculateFontSize)

The browser text-measurement oracle (`getBBox().width` for a fixed text
string, font family and weight, as a function of the `font-size`
attribute) is abstracted as a function `measure : ℚ → ℚ`.
-/

/-- The `while (maxSize - minSize > 0.5)` loop of `calculateFontSize`
(useCanvas.ts lines 232-243).  Each iteration measures the midpoint and
replaces one endpoint by it; the loop returns the lower bound `minSize`.
Termination: the interval width halves every iteration. -/
def bsLoop (measure : ℚ → ℚ) (maxWidth minSize maxSize : ℚ) : ℚ :=
  if 1/2 < maxSize - minSize then
    if maxWidth < measure ((minSize + maxSize) / 2) then
      bsLoop measure maxWidth minSize ((minSize + maxSize) / 2)
    else
      bsLoop measure maxWidth ((minSize + maxSize) / 2) maxSize
  else
    minSize
termination_by (⌈(maxSize - minSize) * 2⌉).toNat
decreasing_by
  all_goals
    have harg : ((minSize + maxSize) / 2 - minSize) * 2 = maxSize - minSize := by ring
    have harg2 : (maxSize - (minSize + maxSize) / 2) * 2 = maxSize - minSize := by ring
    have hceil : ⌈maxSize - minSize⌉ < ⌈(maxSize - minSize) * 2⌉ := by
      rcases le_or_lt 1 (maxSize - minSize) with h1 | h1
      · have h2 : (⌈maxSize - minSize⌉ : ℚ) < (maxSize - minSize) + 1 :=
          Int.ceil_lt_add_one _
        have h3 : ((maxSize - minSize) + 1 : ℚ) ≤ (maxSize - minSize) * 2 := by linarith
        have h4 : ((maxSize - minSize) * 2 : ℚ) ≤ (⌈(maxSize - minSize) * 2⌉ : ℚ) :=
          Int.le_ceil _
        exact_mod_cast lt_of_lt_of_le h2 (le_trans h3 h4)
      · have h2 : ⌈maxSize - minSize⌉ ≤ 1 := Int.ceil_le.mpr (by exact_mod_cast h1.le)
        have h3 : (1 : ℤ) < ⌈(maxSize - minSize) * 2⌉ := by
          rw [Int.lt_ceil]
          push_cast
          linarith
        omega
    have hpos : 0 < ⌈(maxSize - minSize) * 2⌉ := by
      rw [Int.ceil_pos]
      linarith
    simp only [harg, harg2]
    omega

/-- `calculateFontSize` (useCanvas.ts lines 190-247).  Empty text keeps the
original size; text whose measured width already fits keeps the original
size; otherwise the result is `Math.floor` of the lower bound produced by
the binary search on `[8, originalFontSize]`. -/
def calculateFontSize (measure : ℚ → ℚ) (text : String)
    (maxWidth originalFontSize : ℚ) : ℚ :=
  if text = "" then originalFontSize
  else if measure originalFontSize ≤ maxWidth then originalFontSize
  else ((⌊bsLoop measure maxWidth 8 originalFontSize⌋ : ℤ) : ℚ)

/-- The loop never moves its lower bound down: the returned value is at
least the initial `minSize` whenever the interval starts non-degenerate. -/
lemma bsLoop_ge (m : ℚ → ℚ) (w : ℚ) (lo hi : ℚ) (h : lo ≤ hi) : lo ≤ bsLoop m w lo hi := by
  refine bsLoop.induct m w (fun a b => a ≤ b → a ≤ bsLoop m w a b) ?_ ?_ ?_ lo hi h
  · intro a b hcond hmeas ih hab
    rw [bsLoop.eq_def, if_pos hcond, if_pos hmeas]
    exact ih (by linarith)
  · intro a b hcond hmeas ih hab
    rw [bsLoop.eq_def, if_pos hcond, if_neg hmeas]
    exact le_trans (by linarith) (ih (by linarith))
  · intro a b hcond hab
    rw [bsLoop.eq_def, if_neg hcond]

/-- The loop never moves its upper bound up: the returned value is at most
the initial `maxSize` whenever the interval starts non-degenerate. -/
lemma bsLoop_le (m : ℚ → ℚ) (w : ℚ) (lo hi : ℚ) (h : lo ≤ hi) : bsLoop m w lo hi ≤ hi := by
  refine bsLoop.induct m w (fun a b => a ≤ b → bsLoop m w a b ≤ b) ?_ ?_ ?_ lo hi h
  · intro a b hcond hmeas ih hab
    rw [bsLoop.eq_def, if_pos hcond, if_pos hmeas]
    exact le_trans (ih (by linarith)) (by linarith)
  · intro a b hcond hmeas ih hab
    rw [bsLoop.eq_def, if_pos hcond, if_neg hmeas]
    exact ih (by linarith)
  · intro a b hcond hab
    rw [bsLoop.eq_def, if_neg hcond]
    exact hab

/-- Loop invariant: the lower bound always measures within the box, so the
returned lower bound does too. -/
lemma bsLoop_fit (m : ℚ → ℚ) (w : ℚ) (lo hi : ℚ) (h : m lo ≤ w) :
    m (bsLoop m w lo hi) ≤ w := by
  refine bsLoop.induct m w (fun a b => m a ≤ w → m (bsLoop m w a b) ≤ w) ?_ ?_ ?_ lo hi h
  · intro a b hcond hmeas ih hfit
    rw [bsLoop.eq_def, if_pos hcond, if_pos hmeas]
    exact ih hfit
  · intro a b hcond hmeas ih hfit
    rw [bsLoop.eq_def, if_pos hcond, if_neg hmeas]
    exact ih (by linarith)
  · intro a b hcond hfit
    rw [bsLoop.eq_def, if_neg hcond]
    exact hfit

/-- C1 (amended).  For non-empty text and a declared size of at least 8:
if the text measures within the box at the declared size the declared size
is returned unchanged; otherwise the result is the floor of the lower
bound of the binary search on `[8, originalFontSize]`; the result never
exceeds the declared size; and, measurement being monotone in font size,
the measured width at the returned size stays within the box whenever the
text fits at size 8.  (The claim's unconditional "returned size ≤ base
size" fails for declared sizes below 8, see the counterexample.) -/
theorem textFitter_spec (m : ℚ → ℚ) (t : String) (w orig : ℚ)
    (ht : t ≠ "")
    (hmono : ∀ s u : ℚ, s ≤ u → m s ≤ m u)
    (h8 : 8 ≤ orig) :
    (m orig ≤ w → calculateFontSize m t w orig = orig) ∧
    (¬ m orig ≤ w →
        calculateFontSize m t w orig = ((⌊bsLoop m w 8 orig⌋ : ℤ) : ℚ)) ∧
    calculateFontSize m t w orig ≤ orig ∧
    (m 8 ≤ w → m (calculateFontSize m t w orig) ≤ w) := by
  by_cases hfit : m orig ≤ w
  · have hval : calculateFontSize m t w orig = orig := by
      simp [calculateFontSize, ht, hfit]
    refine ⟨fun _ => hval, fun hc => absurd hfit hc, by rw [hval], fun _ => by rw [hval]; exact hfit⟩
  · have hval : calculateFontSize m t w orig = ((⌊bsLoop m w 8 orig⌋ : ℤ) : ℚ) := by
      simp [calculateFontSize, ht, hfit]
    have hfloor : ((⌊bsLoop m w 8 orig⌋ : ℤ) : ℚ) ≤ bsLoop m w 8 orig := Int.floor_le _
    refine ⟨fun hc => absurd hc hfit, fun _ => hval, ?_, ?_⟩
    · rw [hval]
      exact le_trans hfloor (bsLoop_le m w 8 orig h8)
    · intro h8fit
      rw [hval]
      exact le_trans (hmono _ _ hfloor) (bsLoop_fit m w 8 orig h8fit)

/-- Witness for C1 at a concrete input: identity measurement, text `"hi"`,
box 100, declared size 32. -/
theorem textFitter_spec_witness :
    (("hi" : String) ≠ "" ∧ (8 : ℚ) ≤ 32) ∧
    calculateFontSize (fun s => s) "hi" 100 32 ≤ 32 :=
  ⟨⟨by decide, by decide⟩,
   (textFitter_spec (fun s => s) "hi" 100 32 (by decide) (fun s u h => h) (by decide)).2.2.1⟩

/-- Counterexample to C1 as stated: with declared size 5 (below the search
floor 8) and text that does not fit, the binary-search interval `[8, 5]`
is empty, the loop exits immediately and the fitter returns 8, which
exceeds the base size 5 — refuting "the returned size is always ≤ the
base font size". -/
theorem textFitter_base_lt_eight_ce :
    calculateFontSize (fun s => 10 * s) "x" 40 5 = 8 ∧ ¬ ((8 : ℚ) ≤ 5) := by
  constructor
  · rw [calculateFontSize.eq_def, if_neg (by decide : ¬("x" = ""))]
    norm_num
    rw [bsLoop.eq_def]
    norm_num
  · norm_num

/-- C10 (amended).  `calculateFontSize` is total by construction (the
definition's well-founded recursion is justified by the halving interval
measure `⌈2(maxSize - minSize)⌉`), and when the declared size is at least
8 the result is either the declared size itself or the floor of a value
in `[8, originalFontSize]`.  (For declared sizes below 8 the result is
the floor of 8, outside the then-empty interval; see the
counterexample.) -/
theorem textFitter_total (m : ℚ → ℚ) (t : String) (w orig : ℚ) (h8 : 8 ≤ orig) :
    calculateFontSize m t w orig = orig ∨
    ∃ q : ℚ, 8 ≤ q ∧ q ≤ orig ∧ calculateFontSize m t w orig = ((⌊q⌋ : ℤ) : ℚ) := by
  by_cases ht : t = ""
  · left
    simp [calculateFontSize, ht]
  · by_cases hfit : m orig ≤ w
    · left
      simp [calculateFontSize, ht, hfit]
    · right
      exact ⟨bsLoop m w 8 orig, bsLoop_ge m w 8 orig h8, bsLoop_le m w 8 orig h8,
        by simp [calculateFontSize, ht, hfit]⟩

/-- Witness for C10 at a concrete input. -/
theorem textFitter_total_witness :
    ((8 : ℚ) ≤ 32) ∧
    (calculateFontSize (fun s => s) "y" 30 32 = 32 ∨
      ∃ q : ℚ, 8 ≤ q ∧ q ≤ 32 ∧ calculateFontSize (fun s => s) "y" 30 32 = ((⌊q⌋ : ℤ) : ℚ)) :=
  ⟨by decide, textFitter_total (fun s => s) "y" 30 32 (by decide)⟩

/-- Counterexample to C10 as stated: with declared size 4 and text that
does not fit, the fitter returns 8, which is neither the original size
nor the floor of a value in the (empty) interval `[8, 4]`. -/
theorem textFitter_total_ce :
    calculateFontSize (fun s => 20 * s) "y" 30 4 = 8 ∧ (8 : ℚ) ≠ 4 ∧ ¬ ((8 : ℚ) ≤ 4) := by
  refine ⟨?_, by norm_num, by norm_num⟩
  rw [calculateFontSize.eq_def, if_neg (by decide : ¬("y" = ""))]
  norm_num
  rw [bsLoop.eq_def]
  norm_num

/-! ## Floyd-Steinberg ditherer (src/src/hooks/useCanvas.ts, lines 169-183)

The canvas `ImageData.data` buffer is modelled as `data : ℕ → ℚ` of
RGBA samples in flat index order; `len` stands for `data.length`.
Stores into the `Uint8ClampedArray` clamp to `[0, 255]` and round half
to even (`clampU8`, the ECMAScript ToUint8Clamp conversion); plain reads
and the `newPixel` stores involve integral values only.  The loop body
(one `i` iteration, `i` stepping by 4) is `ditherStep`; `dither` runs it
over the whole buffer in flat order.
-/

/-- ToUint8Clamp rounding: round half to even on the integer grid. -/
def roundHalfEven (q : ℚ) : ℤ :=
  if (⌊q⌋ : ℚ) + 1/2 < q then ⌊q⌋ + 1
  else if q < (⌊q⌋ : ℚ) + 1/2 then ⌊q⌋
  else if ⌊q⌋ % 2 = 0 then ⌊q⌋ else ⌊q⌋ + 1

/-- ToUint8Clamp: what storing a rational sample into a
`Uint8ClampedArray` cell yields. -/
def clampU8 (q : ℚ) : ℚ :=
  if q ≤ 0 then 0
  else if 255 ≤ q then 255
  else ((roundHalfEven q : ℤ) : ℚ)

/-- Pointwise store into the flat buffer. -/
def upd (data : ℕ → ℚ) (j : ℕ) (v : ℚ) : ℕ → ℚ :=
  fun k => if k = j then v else data k

/-- The `data[j] += e` statement on a clamped byte array. -/
def addClamped (data : ℕ → ℚ) (j : ℕ) (e : ℚ) : ℕ → ℚ :=
  upd data j (clampU8 (data j + e))

/-- `newPixel` of useCanvas.ts lines 171-172: luminance thresholded at
128, giving 0 (all-black sample) or 255 (all-white sample). -/
def quantize (data : ℕ → ℚ) (i : ℕ) : ℚ :=
  if data i * (299/1000) + data (i+1) * (587/1000) + data (i+2) * (114/1000) < 128
  then 0 else 255

/-- `quantError` of useCanvas.ts line 173: luminance minus the quantized
output luminance, read before the writes of line 175. -/
def quantError (data : ℕ → ℚ) (i : ℕ) : ℚ :=
  (data i * (299/1000) + data (i+1) * (587/1000) + data (i+2) * (114/1000))
    - quantize data i

/-- One iteration of the Floyd-Steinberg loop (useCanvas.ts lines
170-181): write the quantized value to the three colour channels, then
add the four weighted error shares to the flat indices `i+4`,
`i+width*4-4`, `i+width*4`, `i+width*4+4`, each guarded only by
`target < len`. -/
def ditherStep (width len : ℕ) (data : ℕ → ℚ) (i : ℕ) : ℕ → ℚ :=
  let np := quantize data i
  let e := quantError data i
  let d0 := upd (upd (upd data i np) (i+1) np) (i+2) np
  let d1 := if i + 4 < len then addClamped d0 (i+4) (e * 7 / 16) else d0
  let d2 := if i + width*4 - 4 < len then addClamped d1 (i + width*4 - 4) (e * 3 / 16) else d1
  let d3 := if i + width*4 < len then addClamped d2 (i + width*4) (e * 5 / 16) else d2
  if i + width*4 + 4 < len then addClamped d3 (i + width*4 + 4) (e * 1 / 16) else d3

/-- The whole dithering pass: the loop `for (i = 0; i < data.length; i += 4)`
over a `width × height` RGBA buffer. -/
def dither (width height : ℕ) (data : ℕ → ℚ) : ℕ → ℚ :=
  (List.range (width*height)).foldl
    (fun d p => ditherStep width (4*(width*height)) d (4*p)) data

lemma upd_self (d : ℕ → ℚ) (j : ℕ) (v : ℚ) : upd d j v j = v := by
  simp [upd]

lemma upd_other (d : ℕ → ℚ) (j : ℕ) (v : ℚ) {k : ℕ} (h : k ≠ j) : upd d j v k = d k := by
  simp [upd, h]

lemma addClamped_out (d : ℕ → ℚ) (j : ℕ) (e : ℚ) {k : ℕ} (h : k ≠ j) :
    addClamped d j e k = d k := by
  rw [addClamped, upd_other _ _ _ h]

/-- C2 (amended).  The only dropping the loop body performs is the flat
bound `target < data.length`: no error is ever written at or past the end
of the buffer.  Within the buffer, however, the arithmetic neighbour
offsets wrap across row edges (see the counterexample), so the claim's
"no wraparound at the leftmost or rightmost column" fails. -/
theorem ditherStep_no_write_past_end (width len : ℕ) (data : ℕ → ℚ) (i k : ℕ)
    (hi : i + 2 < len) (hk : len ≤ k) :
    ditherStep width len data i k = data k := by
  simp only [ditherStep]
  split_ifs <;>
    (repeat rw [addClamped_out _ _ _ (by omega)]) <;>
    rw [upd_other _ _ _ (by omega), upd_other _ _ _ (by omega), upd_other _ _ _ (by omega)]

/-- Witness for C2's amended theorem at a concrete input. -/
theorem ditherStep_no_write_past_end_witness :
    (4 + 2 < 8 ∧ 8 ≤ 9) ∧ ditherStep 2 8 (fun _ => 200) 4 9 = 200 :=
  ⟨⟨by decide, by decide⟩,
   ditherStep_no_write_past_end 2 8 (fun _ => 200) 4 9 (by decide) (by decide)⟩

/-- Counterexample to C2 as stated: in a 3-wide, 2-high buffer
(`len = 24`), pixel (2,0) — flat byte index `i = 8` — sits in the
rightmost column, so its "next pixel in the row" diffusion target is out
of bounds and per the claim must receive no error.  The code instead
adds `7/16` of the error at flat index `i + 4 = 12`, which is pixel
(0,1): the leftmost pixel of the next row.  All samples start at 200
(luminance 200, error `-55`), and cell 12 ends at
`clampU8(200 - 55·7/16) = 176 ≠ 200`. -/
theorem ditherStep_row_wrap_ce :
    ditherStep 3 24 (fun _ => 200) 8 12 = 176 ∧ (176 : ℚ) ≠ 200 := by
  constructor
  · norm_num [ditherStep, quantize, quantError, addClamped, upd, clampU8, roundHalfEven]
  · norm_num

lemma stage_const (len : ℕ) (v : ℚ) (dd : ℕ → ℚ) (t : ℕ) (e : ℚ) (cond : Prop)
    [Decidable cond] (hcond : cond → t < len) (he : e = 0) (hv : clampU8 v = v)
    (hdd : ∀ k, k < len → dd k = v) :
    ∀ k, k < len → (if cond then addClamped dd t e else dd) k = v := by
  intro k hk
  split
  · next hc =>
    by_cases hkt : k = t
    · subst hkt
      rw [addClamped, upd_self, hdd k hk, he, add_zero, hv]
    · rw [addClamped_out _ _ _ hkt]
      exact hdd k hk
  · exact hdd k hk

/-- A buffer constant at a quantization fixed point (all samples 0, or
all samples 255) is left unchanged by one loop iteration: the quantized
value reproduces the sample and the quantization error is zero. -/
lemma ditherStep_const (width len : ℕ) (d : ℕ → ℚ) (i : ℕ) (v : ℚ)
    (hv : v = 0 ∨ v = 255) (hi : i + 2 < len) (hd : ∀ k, k < len → d k = v) :
    ∀ k, k < len → ditherStep width len d i k = v := by
  have hr0 : d i = v := hd i (by omega)
  have hr1 : d (i+1) = v := hd (i+1) (by omega)
  have hr2 : d (i+2) = v := hd (i+2) (by omega)
  have hq : quantize d i = v := by
    rcases hv with rfl | rfl <;> rw [quantize, hr0, hr1, hr2] <;> norm_num
  have he : quantError d i = 0 := by
    rcases hv with rfl | rfl <;> rw [quantError, hq, hr0, hr1, hr2] <;> norm_num
  have hcv : clampU8 v = v := by
    rcases hv with rfl | rfl <;> norm_num [clampU8]
  have hd0 : ∀ k, k < len → upd (upd (upd d i v) (i+1) v) (i+2) v k = v := by
    intro k hk
    by_cases h2 : k = i+2
    · subst h2; rw [upd_self]
    · rw [upd_other _ _ _ h2]
      by_cases h1 : k = i+1
      · subst h1; rw [upd_self]
      · rw [upd_other _ _ _ h1]
        by_cases h0 : k = i
        · subst h0; rw [upd_self]
        · rw [upd_other _ _ _ h0]; exact hd k hk
  have h1 := stage_const len v _ (i+4) (0 * 7 / 16) (i + 4 < len)
    id (by norm_num) hcv hd0
  have h2 := stage_const len v _ (i + width*4 - 4) (0 * 3 / 16) (i + width*4 - 4 < len)
    id (by norm_num) hcv h1
  have h3 := stage_const len v _ (i + width*4) (0 * 5 / 16) (i + width*4 < len)
    id (by norm_num) hcv h2
  have h4 := stage_const len v _ (i + width*4 + 4) (0 * 1 / 16) (i + width*4 + 4 < len)
    id (by norm_num) hcv h3
  intro k hk
  simp only [ditherStep, hq, he]
  exact h4 k hk

lemma dither_foldl_const (width len : ℕ) (v : ℚ) (hv : v = 0 ∨ v = 255) (l : List ℕ)
    (hl : ∀ p ∈ l, 4*p + 2 < len) :
    ∀ d : ℕ → ℚ, (∀ k, k < len → d k = v) →
      ∀ k, k < len → l.foldl (fun d p => ditherStep width len d (4*p)) d k = v := by
  induction l with
  | nil => intro d hd k hk; exact hd k hk
  | cons p rest ih =>
    intro d hd k hk
    rw [List.foldl_cons]
    exact ih (fun q hq => hl q (List.mem_cons_of_mem _ hq))
      (ditherStep width len d (4*p))
      (ditherStep_const width len d (4*p) v hv (hl p (List.mem_cons_self _ _)) hd)
      k hk

/-- One loop iteration writes only at flat indices `≥ i` (given at least
one pixel per row, every diffusion target is at least `i`). -/
lemma ditherStep_unchanged_lt (width len : ℕ) (d : ℕ → ℚ) (i k : ℕ)
    (hW : 1 ≤ width) (hk : k < i) :
    ditherStep width len d i k = d k := by
  simp only [ditherStep]
  split_ifs <;>
    (repeat rw [addClamped_out _ _ _ (by omega)]) <;>
    rw [upd_other _ _ _ (by omega), upd_other _ _ _ (by omega), upd_other _ _ _ (by omega)]

lemma dither_foldl_unchanged (width len : ℕ) (l : List ℕ) (d : ℕ → ℚ) (k : ℕ)
    (hW : 1 ≤ width) (hl : ∀ p ∈ l, k < 4*p) :
    l.foldl (fun d p => ditherStep width len d (4*p)) d k = d k := by
  induction l generalizing d with
  | nil => rfl
  | cons p rest ih =>
    rw [List.foldl_cons, ih _ (fun q hq => hl q (List.mem_cons_of_mem _ hq))]
    exact ditherStep_unchanged_lt width len d (4*p) k hW (hl p (List.mem_cons_self _ _))

/-- After its own iteration, a pixel's three colour channels hold exactly
the quantized value (for buffers at least two pixels wide, every
diffusion target lies at index `≥ i + 4`). -/
lemma ditherStep_own (width len : ℕ) (d : ℕ → ℚ) (i c : ℕ)
    (hW : 2 ≤ width) (hc : c < 3) :
    ditherStep width len d i (i + c) = quantize d i := by
  simp only [ditherStep]
  split_ifs <;> (repeat rw [addClamped_out _ _ _ (by omega)]) <;>
    interval_cases c <;>
    first
      | rw [show i + 0 = i from rfl, upd_other _ _ _ (by omega),
            upd_other _ _ _ (by omega), upd_self]
      | rw [upd_other _ _ _ (by omega), upd_self]
      | rw [upd_self]

/-- For buffers at least two pixels wide, the final value of each of a
pixel's three colour channels is the value quantized at that pixel's own
iteration: earlier iterations only feed error forward, later iterations
only write at strictly larger indices. -/
lemma dither_pixel_eq (width height : ℕ) (data : ℕ → ℚ) (p c : ℕ)
    (hW : 2 ≤ width) (hp : p < width * height) (hc : c < 3) :
    dither width height data (4*p + c) =
      quantize ((List.range p).foldl
        (fun d q => ditherStep width (4*(width*height)) d (4*q)) data) (4*p) := by
  rw [dither]
  set len := 4*(width*height) with hlen
  rw [show width*height = p + 1 + (width*height - (p+1)) from by omega,
    List.range_add, List.foldl_append]
  rw [dither_foldl_unchanged width len _ _ (4*p + c) (by omega)
    (fun q hq => by
      rcases List.mem_map.mp hq with ⟨x, hx, h⟩
      omega)]
  rw [List.range_succ, List.foldl_append, List.foldl_cons, List.foldl_nil]
  exact ditherStep_own width len _ (4*p) c hW hc

/-- C3 (amended).  For every buffer at least two pixels wide, dithering
leaves each pixel's three colour channels equal and quantized to 0 or
255; an all-white buffer (all samples 255, e.g. a 48×48 one) is returned
unchanged all-white with zero accumulated error, and an all-black buffer
is returned unchanged all-black.  (For 1-pixel-wide buffers the `3/16`
target `i + width*4 - 4` is the current pixel itself, whose red channel
is corrupted after quantization: see the counterexample.) -/
theorem dither_purity_spec :
    (∀ width height data p, 2 ≤ width → p < width * height →
      ((dither width height data (4*p) = 0 ∨ dither width height data (4*p) = 255) ∧
       dither width height data (4*p + 1) = dither width height data (4*p) ∧
       dither width height data (4*p + 2) = dither width height data (4*p))) ∧
    (∀ width height data, (∀ k, k < 4*(width*height) → data k = 255) →
      ∀ k, k < 4*(width*height) → dither width height data k = 255) ∧
    (∀ width height data, (∀ k, k < 4*(width*height) → data k = 0) →
      ∀ k, k < 4*(width*height) → dither width height data k = 0) := by
  refine ⟨?_, ?_, ?_⟩
  · intro width height data p hW hp
    have e0 := dither_pixel_eq width height data p 0 hW hp (by omega)
    have e1 := dither_pixel_eq width height data p 1 hW hp (by omega)
    have e2 := dither_pixel_eq width height data p 2 hW hp (by omega)
    rw [Nat.add_zero] at e0
    refine ⟨?_, e1.trans e0.symm, e2.trans e0.symm⟩
    rw [e0, quantize]
    split
    · left; rfl
    · right; rfl
  · intro width height data hd k hk
    rw [dither]
    exact dither_foldl_const width (4*(width*height)) 255 (Or.inr rfl) _
      (fun p hp => by rw [List.mem_range] at hp; omega) data hd k hk
  · intro width height data hd k hk
    rw [dither]
    exact dither_foldl_const width (4*(width*height)) 0 (Or.inl rfl) _
      (fun p hp => by rw [List.mem_range] at hp; omega) data hd k hk

/-- Witness for C3's amended theorem: a 2×1 grey buffer for the purity
part, a 48×48 all-white buffer and a 2×2 all-black buffer for the
constant parts. -/
theorem dither_purity_spec_witness :
    ((2 ≤ 2 ∧ 0 < 2 * 1) ∧
      (dither 2 1 (fun _ => 100) (4*0) = 0 ∨ dither 2 1 (fun _ => 100) (4*0) = 255)) ∧
    (∀ k, k < 4*(48*48) → dither 48 48 (fun _ => 255) k = 255) ∧
    (∀ k, k < 4*(2*2) → dither 2 2 (fun _ => 0) k = 0) :=
  ⟨⟨⟨by decide, by decide⟩,
    (dither_purity_spec.1 2 1 (fun _ => 100) 0 (by decide) (by decide)).1⟩,
   dither_purity_spec.2.1 48 48 (fun _ => 255) (fun k hk => rfl),
   dither_purity_spec.2.2 2 2 (fun _ => 0) (fun k hk => rfl)⟩

/-- Counterexample to C3 as stated: on a 1-pixel-wide, 2-high buffer of
uniform grey 100, the first pixel's `3/16` diffusion target is
`i + width*4 - 4 = i`, i.e. its own red channel, which is rewritten to
`clampU8(0 + 100·3/16) = 19` after quantization — the output buffer
contains the sample 19, which is neither 0 nor 255. -/
theorem dither_width_one_ce :
    dither 1 2 (fun _ => 100) 0 = 19 ∧ (19 : ℚ) ≠ 0 ∧ (19 : ℚ) ≠ 255 := by
  refine ⟨?_, by norm_num, by norm_num⟩
  norm_num [dither, List.range_succ, ditherStep, quantize, quantError,
    addClamped, upd, clampU8, roundHalfEven]

lemma upd_congr_at (d1 d2 : ℕ → ℚ) (j k : ℕ) (v : ℚ) (h : k ≠ j → d1 k = d2 k) :
    upd d1 j v k = upd d2 j v k := by
  by_cases hk : k = j
  · subst hk; rw [upd_self, upd_self]
  · rw [upd_other _ _ _ hk, upd_other _ _ _ hk]; exact h hk

lemma addClamped_congr_at (d1 d2 : ℕ → ℚ) (t : ℕ) (e : ℚ) (k : ℕ)
    (hdt : d1 t = d2 t) (hne : k ≠ t → d1 k = d2 k) :
    addClamped d1 t e k = addClamped d2 t e k := by
  rw [addClamped, addClamped, hdt]
  exact upd_congr_at _ _ _ _ _ hne

lemma stage_congr (len : ℕ) (d1 d2 : ℕ → ℚ) (t : ℕ) (e : ℚ) (cond : Prop)
    [Decidable cond] (hcond : cond → t < len)
    (h : ∀ k, k < len → d1 k = d2 k) :
    ∀ k, k < len →
      (if cond then addClamped d1 t e else d1) k
        = (if cond then addClamped d2 t e else d2) k := by
  intro k hk
  split
  · next hc => exact addClamped_congr_at d1 d2 t e k (h t (hcond hc)) (fun _ => h k hk)
  · exact h k hk

/-- One loop iteration reads and writes only inside the buffer, so it
maps buffers that agree on `[0, len)` to buffers that agree on
`[0, len)`. -/
lemma ditherStep_congr (width len : ℕ) (d1 d2 : ℕ → ℚ) (i : ℕ)
    (hi : i + 2 < len) (h : ∀ k, k < len → d1 k = d2 k) :
    ∀ k, k < len → ditherStep width len d1 i k = ditherStep width len d2 i k := by
  have hq : quantize d1 i = quantize d2 i := by
    rw [quantize, quantize, h i (by omega), h (i+1) (by omega), h (i+2) (by omega)]
  have he : quantError d1 i = quantError d2 i := by
    rw [quantError, quantError, hq, h i (by omega), h (i+1) (by omega), h (i+2) (by omega)]
  have hd0 : ∀ k, k < len →
      upd (upd (upd d1 i (quantize d2 i)) (i+1) (quantize d2 i)) (i+2) (quantize d2 i) k
        = upd (upd (upd d2 i (quantize d2 i)) (i+1) (quantize d2 i)) (i+2) (quantize d2 i) k := by
    intro k hk
    refine upd_congr_at _ _ _ _ _ (fun h2 => ?_)
    refine upd_congr_at _ _ _ _ _ (fun h1 => ?_)
    refine upd_congr_at _ _ _ _ _ (fun h0 => ?_)
    exact h k hk
  have h1 := stage_congr len _ _ (i+4) (quantError d2 i * 7 / 16) (i + 4 < len) id hd0
  have h2 := stage_congr len _ _ (i + width*4 - 4) (quantError d2 i * 3 / 16)
    (i + width*4 - 4 < len) id h1
  have h3 := stage_congr len _ _ (i + width*4) (quantError d2 i * 5 / 16)
    (i + width*4 < len) id h2
  have h4 := stage_congr len _ _ (i + width*4 + 4) (quantError d2 i * 1 / 16)
    (i + width*4 + 4 < len) id h3
  intro k hk
  simp only [ditherStep, hq, he]
  exact h4 k hk

lemma dither_foldl_congr (width len : ℕ) (l : List ℕ)
    (hl : ∀ p ∈ l, 4*p + 2 < len) :
    ∀ d1 d2 : ℕ → ℚ, (∀ k, k < len → d1 k = d2 k) →
      ∀ k, k < len →
        l.foldl (fun d p => ditherStep width len d (4*p)) d1 k
          = l.foldl (fun d p => ditherStep width len d (4*p)) d2 k := by
  induction l with
  | nil => intro d1 d2 h k hk; exact h k hk
  | cons p rest ih =>
    intro d1 d2 h k hk
    rw [List.foldl_cons, List.foldl_cons]
    exact ih (fun q hq => hl q (List.mem_cons_of_mem _ hq)) _ _
      (ditherStep_congr width len d1 d2 (4*p) (hl p (List.mem_cons_self _ _)) h)
      k hk

/-- C4 (confirmed).  The dithering stage is a pure function of the buffer
contents and dimensions: two buffers of equal dimensions whose samples
agree on the whole flat range produce outputs agreeing on the whole flat
range — the pass neither reads nor writes anything else. -/
theorem dither_deterministic (width height : ℕ) (d1 d2 : ℕ → ℚ)
    (h : ∀ k, k < 4*(width*height) → d1 k = d2 k) :
    ∀ k, k < 4*(width*height) → dither width height d1 k = dither width height d2 k := by
  rw [dither, dither]
  exact dither_foldl_congr width (4*(width*height)) _
    (fun p hp => by rw [List.mem_range] at hp; omega) d1 d2 h

/-- Witness for C4 at a concrete input: two 1×1 buffers that agree on the
four in-range samples but differ beyond them. -/
theorem dither_deterministic_witness :
    (∀ k, k < 4*(1*1) → (fun _ : ℕ => (200:ℚ)) k = (fun j : ℕ => if j < 4 then (200:ℚ) else 0) k) ∧
    (∀ k, k < 4*(1*1) →
      dither 1 1 (fun _ => 200) k = dither 1 1 (fun j => if j < 4 then 200 else 0) k) :=
  ⟨by decide,
   dither_deterministic 1 1 (fun _ => 200) (fun j => if j < 4 then 200 else 0) (by decide)⟩

/-! ## SVG text-field substitution (src/src/hooks/useCanvas.ts,
drawSVGTemplate lines 43-149, and the shared svg utilities'
updateSVGTextFields)

A text element is modelled by its id, its `font-size` attribute, its
tspan children (`y` attribute and text content) and its single-line text
content.  The browser measurement oracle now also depends on the
measured string: `measure : String → ℚ → ℚ`.  JavaScript
`value.split('\x0a')` is embedded as the structural `splitLines`.
-/

def splitLinesAux : List Char → List Char → List String
  | [], acc => [String.mk acc.reverse]
  | c :: rest, acc =>
    if c = '\n' then String.mk acc.reverse :: splitLinesAux rest []
    else splitLinesAux rest (c :: acc)

/-- JavaScript `value.split('\x0a')`. -/
def splitLines (s : String) : List String := splitLinesAux s.toList []

/-- The `lines.forEach` scan of useCanvas.ts lines 76-83: the first line
of maximal character count (`line.length > maxLineLength`). -/
def longestLine (lines : List String) : String :=
  lines.foldl (fun best line => if best.length < line.length then line else best) ""

/-- Line advance of useCanvas.ts lines 106-112: the spacing read from the
first two tspans' `y` attributes when there are at least two, otherwise
`originalFontSize * 1.25`. -/
def lineHeightCanvas (tspanYs : List ℚ) (originalFontSize : ℚ) : ℚ :=
  match tspanYs with
  | y1 :: y2 :: _ => y2 - y1
  | _ => originalFontSize * (5/4)

/-- Line advance of the svg utilities' updateSVGTextFields `y`-positioned
branch (lines 228-238): spacing from the first two tspans' `y` when
present, otherwise `adjustedFontSize * 1.25`. -/
def lineSpacingModalY (tspanYs : List ℚ) (adjustedFontSize : ℚ) : ℚ :=
  match tspanYs with
  | y1 :: y2 :: _ => y2 - y1
  | _ => adjustedFontSize * (5/4)

/-- Line advance of updateSVGTextFields' `dy`-positioned branch (lines
220-227): the second tspan's `dy` when present and non-zero (a missing
or unparsable attribute reads as 0), otherwise `adjustedFontSize * 1.25`. -/
def lineSpacingModalDy (tspanDys : List ℚ) (adjustedFontSize : ℚ) : ℚ :=
  match tspanDys with
  | _ :: dy2 :: _ => if dy2 = 0 then adjustedFontSize * (5/4) else dy2
  | _ => adjustedFontSize * (5/4)

/-- An SVG `text` element as manipulated by drawSVGTemplate. -/
structure TextElem where
  id : String
  fontSize : ℚ
  tspans : List (ℚ × String)
  content : String
deriving DecidableEq

/-- `maxTextWidth` of useCanvas.ts lines 56-58: the svg width minus 20px
padding on each side. -/
def maxTextWidth (svgWidth : ℚ) : ℚ := svgWidth - (20 * 2)

/-- The per-field body of drawSVGTemplate's update loop (lines 65-148):
multi-line elements (non-empty tspan list) split the value on line
breaks, size by the longest line when it is non-empty, and rebuild the
tspans at `baseY + index * lineHeight`; single-line elements set their
content and size by the whole value. -/
def updateTextElem (measure : String → ℚ → ℚ) (w : ℚ) (e : TextElem)
    (value : String) : TextElem :=
  if e.tspans = [] then
    { e with fontSize := calculateFontSize (measure value) value w e.fontSize,
             content := value }
  else
    let lines := splitLines value
    let longest := longestLine lines
    let adjustedFontSize :=
      if longest = "" then e.fontSize
      else calculateFontSize (measure longest) longest w e.fontSize
    let baseY := match e.tspans with
      | (y, _) :: _ => y
      | [] => 100
    let lineHeight := lineHeightCanvas (e.tspans.map Prod.fst) e.fontSize
    { e with fontSize := adjustedFontSize,
             tspans := lines.enum.map (fun q => (baseY + (q.1 : ℚ) * lineHeight, q.2)) }

/-- The `Object.entries(textFields).forEach` loop of drawSVGTemplate
(lines 61-149): iterate the supplied field entries and update the
document element with the matching id, skipping entries with no match. -/
def applyTextFields (measure : String → ℚ → ℚ) (w : ℚ)
    (doc : List TextElem) (fields : List (String × String)) : List TextElem :=
  fields.foldl
    (fun d kv =>
      d.map (fun e => if e.id = kv.1 then updateTextElem measure w e kv.2 else e))
    doc

/-- Cumulative effect of the entry loop on one element. -/
def applyEntries (measure : String → ℚ → ℚ) (w : ℚ)
    (fields : List (String × String)) (e : TextElem) : TextElem :=
  fields.foldl
    (fun e kv => if e.id = kv.1 then updateTextElem measure w e kv.2 else e) e

lemma applyTextFields_eq_map (m : String → ℚ → ℚ) (w : ℚ)
    (doc : List TextElem) (fields : List (String × String)) :
    applyTextFields m w doc fields = doc.map (applyEntries m w fields) := by
  induction fields generalizing doc with
  | nil =>
    show doc = doc.map (applyEntries m w [])
    have hid : applyEntries m w [] = fun e => e := rfl
    rw [hid, List.map_id']
  | cons kv rest ih =>
    have h1 : applyTextFields m w doc (kv :: rest)
        = applyTextFields m w
            (doc.map (fun e => if e.id = kv.1 then updateTextElem m w e kv.2 else e))
            rest := rfl
    rw [h1, ih, List.map_map]
    rfl

lemma applyEntries_skip (m : String → ℚ → ℚ) (w : ℚ)
    (fields : List (String × String)) (e : TextElem)
    (h : ∀ kv ∈ fields, kv.1 ≠ e.id) :
    applyEntries m w fields e = e := by
  induction fields with
  | nil => rfl
  | cons kv rest ih =>
    have hkv : ¬ (e.id = kv.1) := fun hh => (h kv (List.mem_cons_self _ _)) hh.symm
    have h1 : applyEntries m w (kv :: rest) e
        = applyEntries m w rest (if e.id = kv.1 then updateTextElem m w e kv.2 else e) := rfl
    rw [h1, if_neg hkv]
    exact ih (fun q hq => h q (List.mem_cons_of_mem _ hq))

/-- C7 (amended).  A field id declared by the template but absent from
the supplied field-values entries is never visited by the update loop:
its element keeps its template-default content unchanged (it does not
become empty).  Supplying the empty string for a single-line field does
produce empty content with the font size unchanged. -/
theorem missingField_spec :
    (∀ (m : String → ℚ → ℚ) (w : ℚ) (doc : List TextElem)
        (fields : List (String × String)) (j : ℕ) (e : TextElem),
      doc[j]? = some e → (∀ kv ∈ fields, kv.1 ≠ e.id) →
      (applyTextFields m w doc fields)[j]? = some e) ∧
    (∀ (m : String → ℚ → ℚ) (w : ℚ) (e : TextElem), e.tspans = [] →
      updateTextElem m w e "" = { e with content := "" }) := by
  constructor
  · intro m w doc fields j e hj hfields
    rw [applyTextFields_eq_map, List.getElem?_map, hj]
    show some (applyEntries m w fields e) = some e
    rw [applyEntries_skip m w fields e hfields]
  · intro m w e h
    rw [updateTextElem, if_pos h]
    simp [calculateFontSize]

/-- Witness for C7's amended theorem at concrete inputs. -/
theorem missingField_spec_witness :
    ((([⟨"a", 32, [], "X"⟩] : List TextElem)[0]? = some ⟨"a", 32, [], "X"⟩ ∧
        (∀ kv ∈ [("b", "v")], kv.1 ≠ "a")) ∧
      (applyTextFields (fun _ _ => 0) 100 [⟨"a", 32, [], "X"⟩] [("b", "v")])[0]?
        = some ⟨"a", 32, [], "X"⟩) ∧
    updateTextElem (fun _ _ => 0) 100 ⟨"a", 32, [], "X"⟩ ""
      = ⟨"a", 32, [], ""⟩ :=
  ⟨⟨⟨rfl, by decide⟩,
    missingField_spec.1 (fun _ _ => 0) 100 [⟨"a", 32, [], "X"⟩] [("b", "v")] 0
      ⟨"a", 32, [], "X"⟩ rfl (by decide)⟩,
   missingField_spec.2 (fun _ _ => 0) 100 ⟨"a", 32, [], "X"⟩ rfl⟩

/-- Counterexample to C7 as stated: a template with one text field
`"name"` whose default content is `"Default"`, composed with an empty
field-values mapping, keeps content `"Default"` — not the empty text the
claim requires. -/
theorem missingField_ce :
    applyTextFields (fun _ _ => 0) 344 [⟨"name", 32, [], "Default"⟩] []
        = [⟨"name", 32, [], "Default"⟩] ∧ ("Default" : String) ≠ "" :=
  ⟨rfl, by decide⟩

/-- C6 (amended).  With at least two reference tspans the declared
advance (second `y` minus first `y`) is preserved, in both code paths;
with a single reference tspan the derived advance is `1.25 ×` a font
size — but the two paths disagree on which one: drawSVGTemplate
(useCanvas.ts line 107) uses the ORIGINAL declared font size, while
updateSVGTextFields uses the resolved (post-fitting) size as the claim
states.  The last conjunct exhibits the canvas path's rebuilt tspans:
their positions advance by the declared spacing `y2 - y1`. -/
theorem lineAdvance_spec :
    (∀ (y1 y2 : ℚ) (ys : List ℚ) (f : ℚ), lineHeightCanvas (y1 :: y2 :: ys) f = y2 - y1) ∧
    (∀ (y1 f : ℚ), lineHeightCanvas [y1] f = f * (5/4)) ∧
    (∀ (y1 y2 : ℚ) (ys : List ℚ) (adj : ℚ), lineSpacingModalY (y1 :: y2 :: ys) adj = y2 - y1) ∧
    (∀ (y1 adj : ℚ), lineSpacingModalY [y1] adj = adj * (5/4)) ∧
    (∀ (d1 adj : ℚ), lineSpacingModalDy [d1] adj = adj * (5/4)) ∧
    (∀ (m : String → ℚ → ℚ) (w : ℚ) (e : TextElem) (value : String)
        (y1 y2 : ℚ) (s1 s2 : String) (rest : List (ℚ × String)),
      e.tspans = (y1, s1) :: (y2, s2) :: rest →
      (updateTextElem m w e value).tspans
        = (splitLines value).enum.map (fun q => (y1 + (q.1 : ℚ) * (y2 - y1), q.2))) := by
  refine ⟨fun _ _ _ _ => rfl, fun _ _ => rfl, fun _ _ _ _ => rfl, fun _ _ => rfl,
    fun _ _ => rfl, ?_⟩
  intro m w e value y1 y2 s1 s2 rest h
  rw [updateTextElem, if_neg (by rw [h]; exact List.cons_ne_nil _ _)]
  simp only [h, List.map_cons, lineHeightCanvas]

/-- Witness for C6's amended theorem at a concrete input (the final
conjunct carries the only hypothesis). -/
theorem lineAdvance_spec_witness :
    ((⟨"f", 32, [(100, "x"), (140, "y")], ""⟩ : TextElem).tspans
        = (100, "x") :: (140, "y") :: []) ∧
    (updateTextElem (fun _ s => s) 344 ⟨"f", 32, [(100, "x"), (140, "y")], ""⟩ "p").tspans
      = (splitLines "p").enum.map (fun q => (100 + (q.1 : ℚ) * (140 - 100), q.2)) :=
  ⟨rfl,
   lineAdvance_spec.2.2.2.2.2 (fun _ s => s) 344 ⟨"f", 32, [(100, "x"), (140, "y")], ""⟩
     "p" 100 140 "x" "y" [] rfl⟩

lemma splitLines_aabb : splitLines "aa\nbb" = ["aa", "bb"] := by decide

lemma longestLine_aabb : longestLine ["aa", "bb"] = "aa" := by decide

lemma fontFit_aabb : calculateFontSize (fun s => 10 * s) "aa" 80 (35/4) = 8 := by
  rw [calculateFontSize.eq_def, if_neg (by decide : ¬("aa" = ""))]
  norm_num
  rw [bsLoop.eq_def]
  norm_num
  rw [bsLoop.eq_def]
  norm_num

lemma enum_aabb : (["aa", "bb"] : List String).enum = [(0, "aa"), (1, "bb")] := by decide

lemma updateTextElem_c6_eval :
    updateTextElem (fun _ s => 10 * s) 80 ⟨"f", 35/4, [(100, "x")], ""⟩ "aa\nbb"
      = ⟨"f", 8, [(100, "aa"), (1775/16, "bb")], ""⟩ := by
  rw [updateTextElem, if_neg (by decide)]
  simp only [splitLines_aabb, longestLine_aabb, enum_aabb, lineHeightCanvas,
    List.map_cons, List.map_nil, show ("aa" = "") = False from by decide, if_false]
  norm_num [fontFit_aabb]

/-- Counterexample to C6 as stated: a canvas-path element with a single
reference tspan, declared size `35/4 = 8.75`, and a measurement
`s ↦ 10s` that forces fitting down to resolved size 8.  The rebuilt
tspans sit at `y = 100` and `y = 1775/16`, an advance of
`75/16 + 100 - 100 = 175/16 = 1.25 × 8.75` — `1.25 ×` the ORIGINAL
declared size, not `1.25 × 8 = 10` as the claim requires. -/
theorem lineAdvance_original_size_ce :
    updateTextElem (fun _ s => 10 * s) 80 ⟨"f", 35/4, [(100, "x")], ""⟩ "aa\nbb"
        = ⟨"f", 8, [(100, "aa"), (1775/16, "bb")], ""⟩ ∧
    (1775/16 : ℚ) - 100 = (35/4) * (5/4) ∧
    ¬ ((1775/16 : ℚ) - 100 = 8 * (5/4)) := by
  refine ⟨updateTextElem_c6_eval, by norm_num, by norm_num⟩

lemma longestLine_foldl (lines : List String) :
    ∀ best : String,
      best.length ≤ (lines.foldl (fun b l => if b.length < l.length then l else b) best).length ∧
      ∀ l ∈ lines,
        l.length ≤ (lines.foldl (fun b l => if b.length < l.length then l else b) best).length := by
  induction lines with
  | nil =>
    intro best
    exact ⟨le_refl _, by intro l hl; cases hl⟩
  | cons x xs ih =>
    intro best
    rw [List.foldl_cons]
    have hbest : best.length ≤ (if best.length < x.length then x else best).length := by
      split
      · next hlt => exact le_of_lt hlt
      · exact le_refl _
    have hx : x.length ≤ (if best.length < x.length then x else best).length := by
      split
      · exact le_refl _
      · next hnlt => omega
    refine ⟨le_trans hbest (ih _).1, ?_⟩
    intro l hl
    rcases List.mem_cons.mp hl with rfl | hmem
    · exact le_trans hx (ih _).1
    · exact (ih _).2 l hmem

/-- The scanned line is the longest by character count. -/
lemma longestLine_le (lines : List String) :
    ∀ l ∈ lines, l.length ≤ (longestLine lines).length :=
  (longestLine_foldl lines "").2

/-- C5 (amended).  A multi-line value is split on explicit line breaks;
one candidate font size is computed from the line longest in CHARACTER
COUNT (not measured width), all lines share that single size, and — for
monotone measurement of that longest line, declared size at least 8 and
a box at least that line's width at size 8 — the measured width of that
char-longest line at the returned size is within the box.  Lines that
render wider than the char-longest line can still overflow the box (see
the counterexample), so the claim's "every line fits" fails. -/
theorem multiline_fit_spec (m : String → ℚ → ℚ) (w : ℚ) (e : TextElem) (value : String)
    (lines : List String) (L : String)
    (hlines : lines = splitLines value)
    (hL : L = longestLine lines)
    (hts : e.tspans ≠ [])
    (hLne : L ≠ "")
    (hmono : ∀ s u : ℚ, s ≤ u → m L s ≤ m L u)
    (h8 : 8 ≤ e.fontSize)
    (hfit8 : m L 8 ≤ w) :
    (updateTextElem m w e value).fontSize = calculateFontSize (m L) L w e.fontSize ∧
    m L ((updateTextElem m w e value).fontSize) ≤ w ∧
    (updateTextElem m w e value).tspans.map Prod.snd = lines ∧
    ∀ l ∈ lines, l.length ≤ L.length := by
  subst hlines
  subst hL
  have h1 : (updateTextElem m w e value).fontSize
      = calculateFontSize (m (longestLine (splitLines value)))
          (longestLine (splitLines value)) w e.fontSize := by
    rw [updateTextElem, if_neg hts]
    show (if longestLine (splitLines value) = "" then e.fontSize else _) = _
    rw [if_neg hLne]
  refine ⟨h1, ?_, ?_, longestLine_le _⟩
  · rw [h1]
    exact (textFitter_spec (m (longestLine (splitLines value)))
      (longestLine (splitLines value)) w e.fontSize hLne hmono h8).2.2.2 hfit8
  · rw [updateTextElem, if_neg hts]
    show ((splitLines value).enum.map _).map Prod.snd = splitLines value
    rw [List.map_map]
    exact List.enum_map_snd _

/-- Witness for C5's amended theorem at a concrete input. -/
theorem multiline_fit_spec_witness :
    ((["ab", "cd"] : List String) = splitLines "ab\ncd" ∧
      ("ab" : String) = longestLine ["ab", "cd"] ∧ (8 : ℚ) ≤ 32) ∧
    (fun _ s => s) "ab"
        ((updateTextElem (fun _ s => s) 344 ⟨"f", 32, [(100, "x")], ""⟩ "ab\ncd").fontSize)
      ≤ 344 :=
  ⟨⟨by decide, by decide, by decide⟩,
   (multiline_fit_spec (fun _ s => s) 344 ⟨"f", 32, [(100, "x")], ""⟩ "ab\ncd"
     ["ab", "cd"] "ab" (by decide) (by decide) (by decide) (by decide)
     (fun s u h => h) (by decide) (by decide)).2.1⟩

/-- A width oracle under which the two-character line `"WW"` renders six
times wider than its character count suggests; monotone in font size
(see `measureByGlyph_mono`). -/
def measureByGlyph (line : String) (s : ℚ) : ℚ := if line = "WW" then 6 * s else s

lemma measureByGlyph_mono (line : String) :
    ∀ s u : ℚ, s ≤ u → measureByGlyph line s ≤ measureByGlyph line u := by
  intro s u h
  rw [measureByGlyph, measureByGlyph]
  split <;> linarith

lemma splitLines_iiiWW : splitLines "iii\nWW" = ["iii", "WW"] := by decide

lemma longestLine_iiiWW : longestLine ["iii", "WW"] = "iii" := by decide

/-- Counterexample to C5 as stated: value `"iii\x0aWW"` in a box of
width 50 with declared size 32 under `measureByGlyph` (monotone, and
both lines fit at size 8: widths 8 and 48 ≤ 50).  The char-longest line
is `"iii"` (3 > 2 characters), which fits at size 32, so the shared
returned size is 32 — but line `"WW"` measures 192 > 50 at that size:
not every line fits, the widest-rendered line overflows. -/
theorem multiline_fit_ce :
    (updateTextElem measureByGlyph 50 ⟨"f", 32, [(100, "x")], ""⟩ "iii\nWW").fontSize = 32 ∧
    measureByGlyph "WW" 32 = 192 ∧ ¬ ((192 : ℚ) ≤ 50) ∧
    measureByGlyph "WW" 8 = 48 ∧ (48 : ℚ) ≤ 50 ∧
    measureByGlyph "iii" 8 = 8 ∧ (8 : ℚ) ≤ 50 := by
  refine ⟨?_, by norm_num [measureByGlyph], by norm_num,
    by norm_num [measureByGlyph], by norm_num,
    by norm_num [measureByGlyph, show ("iii" = "WW") = False from by decide], by norm_num⟩
  rw [updateTextElem, if_neg (by decide)]
  show (if longestLine (splitLines "iii\nWW") = "" then (32:ℚ) else _) = 32
  simp only [splitLines_iiiWW, longestLine_iiiWW,
    show ("iii" = "") = False from by decide, if_false]
  rw [calculateFontSize.eq_def, if_neg (by decide : ¬("iii" = ""))]
  simp only [measureByGlyph, show ("iii" = "WW") = False from by decide, if_false]
  norm_num

/-! ## Preview-canvas dimensions (src/src/hooks/useCanvas.ts, lines 4, 20-29) -/

/-- `mmToPx` of useCanvas.ts line 4: millimetres times `203 / 25.4`
dots per millimetre. -/
def mmToPx (mm : ℚ) : ℚ := mm * 203 / (254/10)

/-- The canvas sizing of useCanvas.ts lines 21-26: in landscape the paper
width and height swap roles before conversion to pixels. -/
def canvasDims (paperWidth paperHeight : ℚ) (isLandscape : Bool) : ℚ × ℚ :=
  let displayWidth := if isLandscape then paperHeight else paperWidth
  let displayHeight := if isLandscape then paperWidth else paperHeight
  (mmToPx displayWidth, mmToPx displayHeight)

/-- C8 (confirmed).  Pixel dimensions are millimetres times `203/25.4`
(so one inch of paper, 25.4 mm, is 203 dots), and in landscape the paper
height feeds the buffer width and the paper width feeds the buffer
height; portrait uses them unswapped. -/
theorem rasterizer_dims_spec :
    (∀ pw ph : ℚ, canvasDims pw ph true = (mmToPx ph, mmToPx pw)) ∧
    (∀ pw ph : ℚ, canvasDims pw ph false = (mmToPx pw, mmToPx ph)) ∧
    (∀ mm : ℚ, mmToPx mm = mm * 203 / (254/10)) ∧
    mmToPx (254/10) = 203 := by
  refine ⟨fun _ _ => rfl, fun _ _ => rfl, fun _ => rfl, by norm_num [mmToPx]⟩

/-! ## Protocol encoder configuration validation

Modelled from the spec: the protocol encoder itself (the `usePrinter`
hook) is not among the extracted sources; only the design document
describes it.  Its §4.5/§7 contract: validate `darkness ∈ [1,15]`,
`speed ∈ [1,5]` and `paperType ∈ {0x0A, 0x0B, 0x26}`, failing with a
`ConfigError` before any frame is produced (never clamping); on success
emit init, darkness, speed, paper-type, raster (rows packed MSB-first,
8 pixels per byte) and finalize frames in that order.
-/

/-- Modelled from the spec: one discrete command or data unit of the
device protocol (§4.5 frame kinds). -/
inductive Frame
  | init
  | darknessSelect (v : ℕ)
  | speedSelect (v : ℕ)
  | paperSelect (v : ℕ)
  | raster (rows : List (List ℕ))
  | finalize
deriving DecidableEq

/-- Modelled from the spec: the printer configuration fields the encoder
validates (§3 PrinterConfig). -/
structure EncodeConfig where
  darkness : ℕ
  speed : ℕ
  paperType : ℕ
deriving DecidableEq

/-- Modelled from the spec: the §7 error kind raised on invalid
configuration. -/
inductive EncodeError
  | configError
deriving DecidableEq

/-- Modelled from the spec: pack a group of up to 8 pixels into one byte,
most significant bit first. -/
def packRowByte (bits : List Bool) : ℕ :=
  bits.foldl (fun acc b => acc * 2 + if b then 1 else 0) 0

/-- Modelled from the spec: split a row into 8-pixel groups. -/
def chunksOf8 : List Bool → List (List Bool)
  | [] => []
  | b :: rest => ((b :: rest).take 8) :: chunksOf8 ((b :: rest).drop 8)
termination_by l => l.length
decreasing_by
  simp only [List.length_drop, List.length_cons]
  omega

/-- Modelled from the spec: a bitmap row packed MSB-first, 8 pixels per
byte, the last byte padded with white. -/
def packRow (row : List Bool) : List ℕ :=
  (chunksOf8 row).map (fun c => packRowByte (c ++ List.replicate (8 - c.length) false))

/-- Modelled from the spec: `encode(bitmap, config)` — validate darkness,
speed and paper type, failing fast with `ConfigError` and zero frames,
otherwise emit the fixed frame sequence of §4.5. -/
def encode (bitmap : List (List Bool)) (cfg : EncodeConfig) :
    Except EncodeError (List Frame) :=
  if cfg.darkness < 1 ∨ 15 < cfg.darkness then .error .configError
  else if cfg.speed < 1 ∨ 5 < cfg.speed then .error .configError
  else if ¬ (cfg.paperType = 0x0A ∨ cfg.paperType = 0x0B ∨ cfg.paperType = 0x26) then
    .error .configError
  else
    .ok [.init, .darknessSelect cfg.darkness, .speedSelect cfg.speed,
         .paperSelect cfg.paperType, .raster (bitmap.map packRow), .finalize]

/-- C9 (confirmed, against the spec-modelled encoder).  Any darkness
outside `[1,15]`, speed outside `[1,5]`, or unrecognized paper type makes
`encode` fail with `ConfigError`, producing no frames — values are
rejected, never clamped. -/
theorem encoder_validation (bitmap : List (List Bool)) (cfg : EncodeConfig)
    (h : cfg.darkness < 1 ∨ 15 < cfg.darkness ∨ cfg.speed < 1 ∨ 5 < cfg.speed ∨
      ¬ (cfg.paperType = 0x0A ∨ cfg.paperType = 0x0B ∨ cfg.paperType = 0x26)) :
    encode bitmap cfg = Except.error EncodeError.configError := by
  simp only [encode]
  split_ifs with h1 h2 h3
  all_goals first
    | rfl
    | (exfalso; tauto)

/-- Witness for C9 at the claim's concrete inputs: darkness 0 and 16,
speed 0 and 6, paper type 0x99 each yield `ConfigError`. -/
theorem encoder_validation_witness :
    encode [] ⟨0, 3, 0x0A⟩ = Except.error EncodeError.configError ∧
    encode [] ⟨16, 3, 0x0A⟩ = Except.error EncodeError.configError ∧
    encode [] ⟨5, 0, 0x0A⟩ = Except.error EncodeError.configError ∧
    encode [] ⟨5, 6, 0x0A⟩ = Except.error EncodeError.configError ∧
    encode [[true]] ⟨5, 3, 0x99⟩ = Except.error EncodeError.configError :=
  ⟨encoder_validation [] ⟨0, 3, 0x0A⟩ (Or.inl (by decide)),
   encoder_validation [] ⟨16, 3, 0x0A⟩ (Or.inr (Or.inl (by decide))),
   encoder_validation [] ⟨5, 0, 0x0A⟩ (Or.inr (Or.inr (Or.inl (by decide)))),
   encoder_validation [] ⟨5, 6, 0x0A⟩ (Or.inr (Or.inr (Or.inr (Or.inl (by decide))))),
   encoder_validation [[true]] ⟨5, 3, 0x99⟩ (Or.inr (Or.inr (Or.inr (Or.inr (by decide)))))⟩
